import Mathlib

/-!
# Verification of the ENADE Medicina 2025 dashboard data pipeline

Shallow embedding of the data-preparation, filtering and aggregation logic of
`src/app.py` (a Streamlit dashboard over a spreadsheet of exam results).

Modelling conventions:
* Spreadsheet numeric cells are modelled as exact rationals (`ℚ`).  The pandas
  implementation uses IEEE float64; every value the claims exercise is an exact
  small decimal, where float64 and `ℚ` agree.
* Results of pandas float division are modelled by `ExtQ`, which makes the
  IEEE special values `NaN`, `+Inf`, `-Inf` explicit: numpy float division by
  zero yields `NaN` for a zero numerator and a signed infinity otherwise,
  without raising.
* Nullable cells are `Option` values; a pandas `NaN` cell is `none`.
* `pandas.Series.round(1)` is modelled by rounding `q * 10` to an integer and
  dividing by ten.  (IEEE rounding breaks ties to even while `round` on `ℚ`
  rounds half up; no value in the claims is a tie, so the difference is
  irrelevant here.)
-/

/-- IEEE-style extended value: the result of a pandas float computation is
either a finite (exact) value, `NaN`, or a signed infinity. -/
inductive ExtQ where
  | nan : ExtQ
  | posInf : ExtQ
  | negInf : ExtQ
  | fin : ℚ → ExtQ
deriving DecidableEq

/-- Float division semantics of numpy on exact operands: division by zero
yields `NaN` when the numerator is zero and a signed infinity otherwise; it
never raises. -/
def divE (a b : ℚ) : ExtQ :=
  if b = 0 then
    if a = 0 then ExtQ.nan else if 0 < a then ExtQ.posInf else ExtQ.negInf
  else ExtQ.fin (a / b)

/-- Multiplication of an extended value by an exact scalar, with IEEE special
cases (`Inf * 0 = NaN`). -/
def mulE (x : ExtQ) (c : ℚ) : ExtQ :=
  match x with
  | ExtQ.nan => ExtQ.nan
  | ExtQ.posInf => if c = 0 then ExtQ.nan else if 0 < c then ExtQ.posInf else ExtQ.negInf
  | ExtQ.negInf => if c = 0 then ExtQ.nan else if 0 < c then ExtQ.negInf else ExtQ.posInf
  | ExtQ.fin q => ExtQ.fin (q * c)

/-- `round` to one decimal digit, as in `pandas.Series.round(1)` on exact
values. -/
def roundTo1 (q : ℚ) : ℚ := (round (q * 10) : ℤ) / 10

/-- `round(1)` lifted to extended values: `NaN` and the infinities round to
themselves. -/
def roundE (x : ExtQ) : ExtQ :=
  match x with
  | ExtQ.fin q => ExtQ.fin (roundTo1 q)
  | ExtQ.nan => ExtQ.nan
  | ExtQ.posInf => ExtQ.posInf
  | ExtQ.negInf => ExtQ.negInf

/-- One row of the raw source spreadsheet, with the internal (renamed) field
names of `load_data` in `src/app.py`.  `n_participantes` and
`pct_proficiencia` are the two cells that may be missing (`dropna` subset);
missing cells are `none`. -/
structure RawRow where
  nome_ies : String
  sigla_ies : String
  municipio : String
  uf : String
  categoria : String
  n_inscritos : ℚ
  n_participantes : Option ℚ
  pct_proficiencia : Option ℚ
  conceito_enade : Option String
  org_academica : String
  cod_curso : String
deriving DecidableEq

/-- A row of the working dataset produced by `load_data`: the essential cells
are present, and the derived columns `pct_proficiencia_display` and
`abstencao` have been added. -/
structure Row where
  nome_ies : String
  sigla_ies : String
  municipio : String
  uf : String
  categoria : String
  n_inscritos : ℚ
  n_participantes : ℚ
  pct_proficiencia : ℚ
  pct_proficiencia_display : ℚ
  abstencao : ExtQ
  conceito_enade : String
  org_academica : String
  cod_curso : String
deriving DecidableEq

/-- `((n_inscritos - n_participantes) / n_inscritos * 100).round(1)` from
line 38 of `src/app.py`, with numpy float-division semantics. -/
def abstencao_calc (n_inscritos n_participantes : ℚ) : ExtQ :=
  roundE (mulE (divE (n_inscritos - n_participantes) n_inscritos) 100)

/-- `str(x)` applied to a possibly missing cell, as in
`df['conceito_enade'].astype(str)`: a missing value becomes the literal text
"nan". -/
def astype_str (x : Option String) : String :=
  match x with
  | some s => s
  | none => "nan"

/-- Row-level body of `load_data` (lines 36-42 of `src/app.py`): compute the
derived columns, and keep the row only when both `n_participantes` and
`pct_proficiencia` are present (the `dropna` subset). -/
def deriveRow (r : RawRow) : Option Row :=
  match r.n_participantes, r.pct_proficiencia with
  | some np, some pf =>
      some { nome_ies := r.nome_ies
             sigla_ies := r.sigla_ies
             municipio := r.municipio
             uf := r.uf
             categoria := r.categoria
             n_inscritos := r.n_inscritos
             n_participantes := np
             pct_proficiencia := pf
             pct_proficiencia_display := pf * 100
             abstencao := abstencao_calc r.n_inscritos np
             conceito_enade := astype_str r.conceito_enade
             org_academica := r.org_academica
             cod_curso := r.cod_curso }
  | _, _ => none

/-- `load_data` of `src/app.py` at row level: derive the display columns and
drop the rows missing `n_participantes` or `pct_proficiencia` (line 42, the
only row-elision step). -/
def load_data (raws : List RawRow) : List Row :=
  raws.filterMap deriveRow

/-- The filter pipeline of lines 138-149 of `src/app.py`: the UF filter is
applied only when the selection is non-empty (Python truthiness of the
multiselect list), likewise the administrative-category filter, and the
participant-count range filter is applied unconditionally, inclusive on both
bounds. -/
def df_filtered (rows : List Row) (selected_ufs selected_cats : List String)
    (lo hi : ℚ) : List Row :=
  let r1 := if selected_ufs.isEmpty then rows
            else rows.filter (fun r => selected_ufs.contains r.uf)
  let r2 := if selected_cats.isEmpty then r1
            else r1.filter (fun r => selected_cats.contains r.categoria)
  r2.filter (fun r => decide (lo ≤ r.n_participantes) && decide (r.n_participantes ≤ hi))

/-- Predicate written from the specification words: a row passes when, for
each categorical dimension, its value is in the selected set or the selected
set is empty, and its participant count lies in the inclusive range.  Used to
compare the source pipeline `df_filtered` against the spec contract. -/
def passes_filters (selected_ufs selected_cats : List String) (lo hi : ℚ)
    (r : Row) : Bool :=
  (selected_ufs.isEmpty || selected_ufs.contains r.uf)
    && (selected_cats.isEmpty || selected_cats.contains r.categoria)
    && (decide (lo ≤ r.n_participantes) && decide (r.n_participantes ≤ hi))

/-- `df_map['n_participantes'].sum()` (line 294 of `src/app.py`). -/
def total_participantes (rows : List Row) : ℚ :=
  (rows.map Row.n_participantes).sum

/-- `(df_map['pct_proficiencia_display'] * df_map['n_participantes']).sum()`,
the numerator of the weighted mean (line 297 of `src/app.py`). -/
def sum_weighted_pct (rows : List Row) : ℚ :=
  (rows.map (fun r => r.pct_proficiencia_display * r.n_participantes)).sum

/-- The weighted mean of lines 296-298 of `src/app.py`, with numpy float
division semantics for a zero denominator. -/
def weighted_mean_proficiency (rows : List Row) : ExtQ :=
  divE (sum_weighted_pct rows) (total_participantes rows)

/-- The statistics branch of the map section (lines 292-307 of `src/app.py`):
when `len(df_map) > 0` the weighted mean is computed and rendered in a
metric widget (`some`), otherwise a warning is shown and no statistic is
rendered (`none`). -/
def map_section_stats (df_map : List Row) : Option ExtQ :=
  if 0 < df_map.length then some (weighted_mean_proficiency df_map) else none

/-- One coordinate entry of `coordinates.json`: the inner object with `lat`
and `lon` members. -/
structure Coord where
  lat : ℚ
  lon : ℚ
deriving DecidableEq

/-- The decoded `coordinates.json` mapping: a Python dict from composite key
strings to coordinate objects, modelled as an association list. -/
abbrev Coords := List (String × Coord)

/-- Python `dict.get(key, default)` on the coordinate mapping. -/
def dict_get (m : Coords) (key : String) : Option Coord :=
  (m.find? (fun p => p.1 == key)).map Prod.snd

/-- A coordinate resource file state: the file may be absent, or present with
content that either decodes to a mapping (`some`) or is malformed and makes
`json.load` raise (`none`).  `json.load` itself is a library call outside the
repository; only its raise-or-return outcome matters here. -/
inductive CoordFile where
  | missing : CoordFile
  | present : Option Coords → CoordFile

/-- `load_coordinates` of `src/app.py` (lines 45-52): `FileNotFoundError` is
caught and an empty mapping returned; a `json.load` failure on an existing
file is not caught and propagates as a fatal error. -/
def load_coordinates (f : CoordFile) : Except String Coords :=
  match f with
  | CoordFile.missing => Except.ok []
  | CoordFile.present none => Except.error "JSONDecodeError"
  | CoordFile.present (some m) => Except.ok m

/-- A row after geo-enrichment: the original working row plus nullable
latitude and longitude columns. -/
structure GeoRow where
  base : Row
  lat : Option ℚ
  lon : Option ℚ
deriving DecidableEq

/-- The composite join key built by the f-string on lines 58 and 62 of
`src/app.py`. -/
def coord_key (municipio uf : String) : String := municipio ++ ", " ++ uf

/-- `add_coordinates` of `src/app.py` (lines 54-65): every row is kept and
gets `coords.get(key, dict()).get(field)` as its nullable latitude and
longitude. -/
def add_coordinates (rows : List Row) (coords : Coords) : List GeoRow :=
  rows.map (fun r =>
    { base := r
      lat := (dict_get coords (coord_key r.municipio r.uf)).map Coord.lat
      lon := (dict_get coords (coord_key r.municipio r.uf)).map Coord.lon })

/-- The fixed rename table of lines 22-34 of `src/app.py`, from exact source
header text to internal identifier.  Note the trailing space in the
proficiency header and the double space in the participants header: they are
exactly as in the source. -/
def rename_map : List (String × String) :=
  [("Nome da IES*", "nome_ies"),
   ("Sigla da IES*", "sigla_ies"),
   ("Município do Curso", "municipio"),
   ("Sigla da UF", "uf"),
   ("Categoria Administrativa", "categoria"),
   ("Nº de Concluintes Inscritos", "n_inscritos"),
   ("Nº  de Concluintes Participantes", "n_participantes"),
   ("Percentual de Concluintes Participantes Igual ou Acima da Proficiência ", "pct_proficiencia"),
   ("Conceito Enade (Faixa)", "conceito_enade"),
   ("Organização Acadêmica", "org_academica"),
   ("Código do Curso", "cod_curso")]

/-- `DataFrame.rename(columns=...)` on one header: a header in the table is
renamed, any other header passes through unchanged; pandas raises nothing for
rename keys absent from the frame. -/
def apply_rename (h : String) : String :=
  ((rename_map.find? (fun p => p.1 == h)).map Prod.snd).getD h

/-- The eleven source headers of a conformant spreadsheet. -/
def all_source_headers : List String := rename_map.map Prod.fst

/-- Reading column `c` of a frame with header list `hs`: pandas raises
`KeyError` when the column is absent. -/
def getcol (hs : List String) (c : String) : Except String Unit :=
  if hs.contains c then Except.ok () else Except.error ("KeyError: " ++ c)

/-- Assigning column `c`: the header is appended when new. -/
def setcol (hs : List String) (c : String) : List String :=
  if hs.contains c then hs else hs ++ [c]

/-- Header-level model of `load_data` (lines 18-43 of `src/app.py`).  The
input is the spreadsheet file: `none` when the file is missing
(`pd.read_excel` raises `FileNotFoundError`), otherwise the list of source
headers.  The body renames headers, then performs the column reads and
writes of lines 36-42 in source order; each read of an absent column raises
`KeyError`. -/
def load_data_schema (file : Option (List String)) : Except String (List String) :=
  match file with
  | none => Except.error "FileNotFoundError"
  | some hs0 =>
    let hs := hs0.map apply_rename
    do
      _ ← getcol hs "pct_proficiencia"
      let hs := setcol hs "pct_proficiencia_display"
      _ ← getcol hs "n_inscritos"
      _ ← getcol hs "n_participantes"
      let hs := setcol hs "abstencao"
      _ ← getcol hs "conceito_enade"
      _ ← getcol hs "n_participantes"
      _ ← getcol hs "pct_proficiencia"
      pure hs

/-- The source headers whose renamed columns `load_data` actually reads
(lines 36, 38, 40 and the `dropna` subset of line 42). -/
def essential_headers : List String :=
  ["Nº de Concluintes Inscritos",
   "Nº  de Concluintes Participantes",
   "Percentual de Concluintes Participantes Igual ou Acima da Proficiência ",
   "Conceito Enade (Faixa)"]

/-- Test fixture: a working-dataset row with the given municipality, UF,
administrative category, participant count and displayed proficiency
percentage; the remaining fields hold fixed placeholder values. -/
def mkRow (municipio uf categoria : String) (np pct_display : ℚ) : Row :=
  { nome_ies := "IES"
    sigla_ies := "IES"
    municipio := municipio
    uf := uf
    categoria := categoria
    n_inscritos := np
    n_participantes := np
    pct_proficiencia := pct_display / 100
    pct_proficiencia_display := pct_display
    abstencao := ExtQ.fin 0
    conceito_enade := "5"
    org_academica := "Universidade"
    cod_curso := "1" }

/-- C1: the aggregation computes the participant-weighted mean
`Σ(proficiency_percent * participant_count) / Σ(participant_count)` over the
filtered subset; on three rows with pairs (80, 10), (60, 5), (100, 5) it
equals 80. -/
theorem C1_weighted_mean :
    weighted_mean_proficiency
        [mkRow "A" "SP" "Privada" 10 80,
         mkRow "B" "SP" "Privada" 5 60,
         mkRow "C" "SP" "Privada" 5 100] = ExtQ.fin 80
    ∧ ∀ rows : List Row, total_participantes rows ≠ 0 →
        weighted_mean_proficiency rows
          = ExtQ.fin (sum_weighted_pct rows / total_participantes rows) := by
  constructor
  · norm_num [weighted_mean_proficiency, sum_weighted_pct, total_participantes,
      mkRow, divE]
  · intro rows h
    simp [weighted_mean_proficiency, divE, h]

/-- Witness for C1: the general formula instantiated on one concrete row with
a nonzero participant total. -/
theorem C1_weighted_mean_witness :
    weighted_mean_proficiency [mkRow "A" "SP" "Privada" 4 50]
      = ExtQ.fin (sum_weighted_pct [mkRow "A" "SP" "Privada" 4 50]
          / total_participantes [mkRow "A" "SP" "Privada" 4 50]) :=
  C1_weighted_mean.2 [mkRow "A" "SP" "Privada" 4 50]
    (by norm_num [total_participantes, mkRow])

/-- C4: `abstencao_calc 100 90 = 10.0`; and with `enrolled_count = 0`, under
the data-model invariant `0 ≤ participant_count ≤ enrolled_count`, the result
is the explicit `NaN` value (pandas raises nothing), which is not `0.0`. -/
theorem C4_abstencao :
    abstencao_calc 100 90 = ExtQ.fin 10
    ∧ (∀ np : ℚ, 0 ≤ np → np ≤ 0 → abstencao_calc 0 np = ExtQ.nan)
    ∧ abstencao_calc 0 0 ≠ ExtQ.fin 0 := by
  refine ⟨?_, ?_, ?_⟩
  · norm_num [abstencao_calc, divE, mulE, roundE, roundTo1]
  · intro np h0 h1
    have hz : np = 0 := le_antisymm h1 h0
    subst hz
    norm_num [abstencao_calc, divE, mulE, roundE, roundTo1]
  · norm_num [abstencao_calc, divE, mulE, roundE, roundTo1]
    exact fun h => ExtQ.noConfusion h

/-- Witness for C4: the zero-enrolled case instantiated at
`participant_count = 0`. -/
theorem C4_abstencao_witness :
    (0 : ℚ) ≤ 0 ∧ abstencao_calc 0 0 = ExtQ.nan :=
  ⟨le_refl 0, C4_abstencao.2.1 0 (le_refl 0) (le_refl 0)⟩

/-- C5: the map-section guard handles the empty subset (no statistic is
rendered), but a non-empty subset whose participant counts sum to zero
produces `NaN` from the `0 / 0` division, and that `NaN` is handed to the
metric widget of the presentation layer rather than a sentinel. -/
theorem C5_nan_to_presentation :
    map_section_stats [] = none
    ∧ map_section_stats [mkRow "Z" "SP" "Privada" 0 50] = some ExtQ.nan := by
  constructor
  · rfl
  · norm_num [map_section_stats, weighted_mean_proficiency, sum_weighted_pct,
      total_participantes, mkRow, divE]

/-- `filterMap` keeps the length when the function succeeds on every
element. -/
lemma length_filterMap_of_isSome {α β : Type} (f : α → Option β) :
    ∀ l : List α, (∀ x ∈ l, (f x).isSome) → (l.filterMap f).length = l.length := by
  intro l
  induction l with
  | nil => intro _; rfl
  | cons x xs ih =>
    intro h
    obtain ⟨y, hy⟩ := Option.isSome_iff_exists.mp (h x (List.mem_cons_self x xs))
    simp [List.filterMap_cons, hy,
      ih (fun a ha => h a (List.mem_cons_of_mem x ha))]

/-- `deriveRow` succeeds exactly when both essential cells are present. -/
lemma deriveRow_isSome (raw : RawRow) :
    (deriveRow raw).isSome
      = (raw.n_participantes.isSome && raw.pct_proficiencia.isSome) := by
  cases h1 : raw.n_participantes <;> cases h2 : raw.pct_proficiencia <;>
    simp [deriveRow, h1, h2]

/-- `load_data` factors through the filter on presence of the two essential
cells. -/
lemma load_data_eq_filter (raws : List RawRow) :
    load_data raws
      = (raws.filter
          (fun raw => raw.n_participantes.isSome && raw.pct_proficiencia.isSome)).filterMap
          deriveRow := by
  induction raws with
  | nil => rfl
  | cons r rs ih =>
    cases h1 : r.n_participantes <;> cases h2 : r.pct_proficiencia <;>
      simp only [load_data, List.filterMap_cons, List.filter_cons, deriveRow, h1, h2,
        Option.isSome_some, Option.isSome_none, Bool.and_self, Bool.and_true,
        Bool.and_false, Bool.false_and, Bool.true_and, if_true, if_false,
        Bool.false_eq_true, ite_false, ite_true] <;>
      first
        | exact ih
        | exact congrArg _ ih

/-- C3: a raw row survives into the working dataset iff both
`n_participantes` and `pct_proficiencia` are present, and the `dropna` of
line 42 is the only elision step: the working dataset is exactly the
derivation of the present-cell rows, one row each. -/
theorem C3_row_elision :
    ∀ raws : List RawRow,
      load_data raws
        = (raws.filter
            (fun raw => raw.n_participantes.isSome && raw.pct_proficiencia.isSome)).filterMap
            deriveRow
      ∧ (load_data raws).length
          = (raws.filter
              (fun raw => raw.n_participantes.isSome && raw.pct_proficiencia.isSome)).length
      ∧ ∀ raw : RawRow,
          (deriveRow raw).isSome
            = (raw.n_participantes.isSome && raw.pct_proficiencia.isSome) := by
  intro raws
  refine ⟨load_data_eq_filter raws, ?_, deriveRow_isSome⟩
  rw [load_data_eq_filter raws]
  apply length_filterMap_of_isSome
  intro x hx
  rw [List.mem_filter] at hx
  rw [deriveRow_isSome]
  exact hx.2

/-- The sequential filter pipeline equals one filter by the conjunction
predicate. -/
lemma df_filtered_eq_filter (rows : List Row) (ufs cats : List String)
    (lo hi : ℚ) :
    df_filtered rows ufs cats lo hi
      = rows.filter (passes_filters ufs cats lo hi) := by
  unfold df_filtered passes_filters
  cases hu : ufs.isEmpty <;> cases hc : cats.isEmpty <;>
    simp only [hu, hc, Bool.false_eq_true, if_true, if_false, ite_true, ite_false,
      List.filter_filter, Bool.false_or, Bool.true_or, Bool.true_and] <;>
    · apply List.filter_congr
      intro a _
      simp [Bool.and_comm, Bool.and_left_comm, Bool.and_assoc]

/-- Membership characterisation of the filter pipeline. -/
lemma mem_df_filtered (rows : List Row) (ufs cats : List String) (lo hi : ℚ)
    (r : Row) :
    r ∈ df_filtered rows ufs cats lo hi
      ↔ r ∈ rows ∧ (ufs = [] ∨ r.uf ∈ ufs) ∧ (cats = [] ∨ r.categoria ∈ cats)
          ∧ lo ≤ r.n_participantes ∧ r.n_participantes ≤ hi := by
  rw [df_filtered_eq_filter, List.mem_filter]
  unfold passes_filters
  simp [List.isEmpty_iff, and_assoc]

/-- C2: the filter engine returns exactly the rows passing the conjunction
of the active predicates: a categorical predicate passes when the selection
set is empty or contains the row value, and the participant-count range is
inclusive on both bounds; in particular an empty selection restricts
nothing. -/
theorem C2_filter_engine :
    (∀ (rows : List Row) (selected_ufs selected_cats : List String) (lo hi : ℚ),
      df_filtered rows selected_ufs selected_cats lo hi
        = rows.filter (passes_filters selected_ufs selected_cats lo hi))
    ∧ ∀ (rows : List Row) (selected_ufs selected_cats : List String)
        (lo hi : ℚ) (r : Row),
        r ∈ df_filtered rows selected_ufs selected_cats lo hi
          ↔ r ∈ rows ∧ (selected_ufs = [] ∨ r.uf ∈ selected_ufs)
              ∧ (selected_cats = [] ∨ r.categoria ∈ selected_cats)
              ∧ lo ≤ r.n_participantes ∧ r.n_participantes ≤ hi :=
  ⟨fun rows u c lo hi => df_filtered_eq_filter rows u c lo hi,
   fun rows u c lo hi r => mem_df_filtered rows u c lo hi r⟩

/-- Witness for C2: the membership characterisation instantiated on one
concrete row with empty categorical selections. -/
theorem C2_filter_engine_witness :
    mkRow "A" "SP" "Privada" 5 50
      ∈ df_filtered [mkRow "A" "SP" "Privada" 5 50] [] [] 0 10 :=
  (C2_filter_engine.2 [mkRow "A" "SP" "Privada" 5 50] [] [] 0 10
      (mkRow "A" "SP" "Privada" 5 50)).mpr
    ⟨List.mem_cons_self _ _, Or.inl rfl, Or.inl rfl,
     by norm_num [mkRow], by norm_num [mkRow]⟩

/-- C9: the filter engine is monotone: narrower-or-equal selections (each
categorical selection a non-empty subset or equal, the numeric range
contained) filter to a subset of the wider result. -/
theorem C9_filter_monotone (rows : List Row)
    (ufs1 ufs2 cats1 cats2 : List String) (lo1 hi1 lo2 hi2 : ℚ)
    (hu : (ufs1 ≠ [] ∧ ∀ x ∈ ufs1, x ∈ ufs2) ∨ ufs1 = ufs2)
    (hc : (cats1 ≠ [] ∧ ∀ x ∈ cats1, x ∈ cats2) ∨ cats1 = cats2)
    (hlo : lo2 ≤ lo1) (hhi : hi1 ≤ hi2) :
    ∀ r ∈ df_filtered rows ufs1 cats1 lo1 hi1,
      r ∈ df_filtered rows ufs2 cats2 lo2 hi2 := by
  intro r hr
  rw [mem_df_filtered] at hr ⊢
  obtain ⟨hmem, hU, hC, h1, h2⟩ := hr
  refine ⟨hmem, ?_, ?_, le_trans hlo h1, le_trans h2 hhi⟩
  · rcases hu with ⟨hne, hsub⟩ | heq
    · rcases hU with h | h
      · exact absurd h hne
      · exact Or.inr (hsub _ h)
    · exact heq ▸ hU
  · rcases hc with ⟨hne, hsub⟩ | heq
    · rcases hC with h | h
      · exact absurd h hne
      · exact Or.inr (hsub _ h)
    · exact heq ▸ hC

/-- Witness for C9: widening the UF selection from one state to two keeps the
filtered row. -/
theorem C9_filter_monotone_witness :
    mkRow "A" "SP" "Privada" 5 50
      ∈ df_filtered [mkRow "A" "SP" "Privada" 5 50] ["SP", "RJ"] [] 0 10 :=
  C9_filter_monotone [mkRow "A" "SP" "Privada" 5 50]
    ["SP"] ["SP", "RJ"] [] [] 1 9 0 10
    (Or.inl ⟨by simp, by intro x hx; simp at hx; simp [hx]⟩)
    (Or.inr rfl) (by norm_num) (by norm_num)
    (mkRow "A" "SP" "Privada" 5 50)
    ((mem_df_filtered [mkRow "A" "SP" "Privada" 5 50] ["SP"] [] 1 9
        (mkRow "A" "SP" "Privada" 5 50)).mpr
      ⟨List.mem_cons_self _ _, Or.inr (by simp [mkRow]), Or.inl rfl,
       by norm_num [mkRow], by norm_num [mkRow]⟩)

/-- C6 counterexample: with the source header "Código do Curso" absent (all
other headers present), `load_data` raises nothing: `rename` silently skips
the missing key and no later line of the loader touches the `cod_curso`
column, so the loader proceeds with a partially-renamed table. -/
theorem C6_missing_header_no_error :
    (load_data_schema (some (all_source_headers.erase "Código do Curso"))).isOk
      = true := by
  decide

/-- C6 amended: a missing spreadsheet file is a fatal load error; a missing
source header is not checked at rename time, so the loader fails (with a
`KeyError` at the point of column access, not a schema check) exactly for the
four headers whose renamed columns lines 36-42 read, and silently proceeds
for every other header. -/
theorem C6_header_behaviour :
    load_data_schema none = Except.error "FileNotFoundError"
    ∧ (∀ h ∈ essential_headers,
        (load_data_schema (some (all_source_headers.erase h))).isOk = false)
    ∧ (∀ h ∈ all_source_headers, h ∉ essential_headers →
        (load_data_schema (some (all_source_headers.erase h))).isOk = true) := by
  refine ⟨rfl, ?_, ?_⟩ <;> decide

/-- Witness for C6: dropping the grade-band header makes the loader fail at
the column access of line 40. -/
theorem C6_header_behaviour_witness :
    (load_data_schema (some (all_source_headers.erase "Conceito Enade (Faixa)"))).isOk
      = false :=
  C6_header_behaviour.2.1 "Conceito Enade (Faixa)" (by decide)

/-- Test fixture: a coordinate mapping holding exactly the accented key
"São Paulo, SP". -/
def coords_SP : Coords := [("São Paulo, SP", { lat := -24, lon := -47 })]

/-- C7: geo-enrichment keeps every row (the enriched table projects back to
the input), a row whose composite key has no mapping entry gets null
latitude and longitude, an entry keyed "São Paulo, SP" matches the row with
municipality "São Paulo" and state "SP", and the unaccented variant
"Sao Paulo" does not match it. -/
theorem C7_geo_join :
    (∀ (rows : List Row) (coords : Coords),
        (add_coordinates rows coords).map GeoRow.base = rows)
    ∧ (∀ (rows : List Row) (coords : Coords) (g : GeoRow),
        g ∈ add_coordinates rows coords →
          dict_get coords (coord_key g.base.municipio g.base.uf) = none →
          g.lat = none ∧ g.lon = none)
    ∧ (add_coordinates [mkRow "São Paulo" "SP" "Privada" 5 50] coords_SP).map
        GeoRow.lat = [some (-24)]
    ∧ (add_coordinates [mkRow "Sao Paulo" "SP" "Privada" 5 50] coords_SP).map
        GeoRow.lat = [none]
    ∧ (add_coordinates [mkRow "Sao Paulo" "SP" "Privada" 5 50] coords_SP).map
        GeoRow.lon = [none] := by
  refine ⟨?_, ?_, ?_, ?_, ?_⟩
  · intro rows coords
    simp [add_coordinates, Function.comp_def]
  · intro rows coords g hg hnone
    simp only [add_coordinates, List.mem_map] at hg
    obtain ⟨r, _, rfl⟩ := hg
    simp only at hnone
    simp [hnone]
  · decide
  · decide
  · decide

/-- Witness for C7: the null-coordinate clause applied to a row joined
against the empty mapping. -/
theorem C7_geo_join_witness :
    ∃ g : GeoRow, g ∈ add_coordinates [mkRow "A" "SP" "Privada" 5 50] []
      ∧ g.lat = none ∧ g.lon = none := by
  refine ⟨(add_coordinates [mkRow "A" "SP" "Privada" 5 50] []).head (by decide),
    ?_, ?_⟩
  · exact List.head_mem _
  · exact C7_geo_join.2.1 [mkRow "A" "SP" "Privada" 5 50] []
      ((add_coordinates [mkRow "A" "SP" "Privada" 5 50] []).head (by decide))
      (List.head_mem _) rfl

/-- C8: a missing coordinate file yields the empty mapping (non-fatal), a
present but malformed file yields a fatal parse error, a well-formed file
yields its mapping, and the missing and malformed outcomes are
distinguishable. -/
theorem C8_coordinate_loader :
    load_coordinates CoordFile.missing = Except.ok []
    ∧ load_coordinates (CoordFile.present none) = Except.error "JSONDecodeError"
    ∧ (∀ m : Coords, load_coordinates (CoordFile.present (some m)) = Except.ok m)
    ∧ load_coordinates CoordFile.missing
        ≠ load_coordinates (CoordFile.present none) := by
  refine ⟨rfl, rfl, fun m => rfl, ?_⟩
  simp [load_coordinates]

/-- Witness for C8: the well-formed-file clause instantiated on a one-entry
mapping. -/
theorem C8_coordinate_loader_witness :
    load_coordinates (CoordFile.present (some coords_SP)) = Except.ok coords_SP :=
  C8_coordinate_loader.2.2.1 coords_SP

/-- A `foldl min` is below its seed and every list element. -/
lemma foldl_min_le (xs : List ℚ) :
    ∀ x : ℚ, xs.foldl min x ≤ x ∧ ∀ a ∈ xs, xs.foldl min x ≤ a := by
  induction xs with
  | nil =>
    intro x
    exact ⟨le_refl x, by intro a ha; cases ha⟩
  | cons y ys ih =>
    intro x
    have h := ih (min x y)
    refine ⟨le_trans h.1 (min_le_left x y), ?_⟩
    intro a ha
    rcases List.mem_cons.mp ha with rfl | ha2
    · exact le_trans h.1 (min_le_right x a)
    · exact h.2 a ha2

/-- A `foldl max` is above its seed and every list element. -/
lemma le_foldl_max (xs : List ℚ) :
    ∀ x : ℚ, x ≤ xs.foldl max x ∧ ∀ a ∈ xs, a ≤ xs.foldl max x := by
  induction xs with
  | nil =>
    intro x
    exact ⟨le_refl x, by intro a ha; cases ha⟩
  | cons y ys ih =>
    intro x
    have h := ih (max x y)
    refine ⟨le_trans (le_max_left x y) h.1, ?_⟩
    intro a ha
    rcases List.mem_cons.mp ha with rfl | ha2
    · exact le_trans (le_max_right x a) h.1
    · exact h.2 a ha2

/-- The value of `min?` bounds every member from below. -/
lemma min?_le_of_mem {l : List ℚ} {m a : ℚ} (hm : l.min? = some m)
    (ha : a ∈ l) : m ≤ a := by
  cases l with
  | nil => cases ha
  | cons x xs =>
    rw [List.min?_cons'] at hm
    injection hm with hm
    subst hm
    rcases List.mem_cons.mp ha with rfl | ha2
    · exact (foldl_min_le xs a).1
    · exact (foldl_min_le xs x).2 a ha2

/-- The value of `max?` bounds every member from above. -/
lemma le_max?_of_mem {l : List ℚ} {M a : ℚ} (hM : l.max? = some M)
    (ha : a ∈ l) : a ≤ M := by
  cases l with
  | nil => cases ha
  | cons x xs =>
    rw [List.max?_cons'] at hM
    injection hM with hM
    subst hM
    rcases List.mem_cons.mp ha with rfl | ha2
    · exact (le_foldl_max xs a).1
    · exact (le_foldl_max xs x).2 a ha2

/-- With non-negative weights and a lower bound `lo` on every displayed
proficiency, `lo` times the participant total is below the weighted sum. -/
lemma lo_mul_total_le_sum (rows : List Row) (lo : ℚ)
    (hn : ∀ r ∈ rows, 0 ≤ r.n_participantes)
    (hp : ∀ r ∈ rows, lo ≤ r.pct_proficiencia_display) :
    lo * total_participantes rows ≤ sum_weighted_pct rows := by
  induction rows with
  | nil => simp [total_participantes, sum_weighted_pct]
  | cons r rs ih =>
    have h1 : lo * r.n_participantes
        ≤ r.pct_proficiencia_display * r.n_participantes :=
      mul_le_mul_of_nonneg_right (hp r (List.mem_cons_self r rs))
        (hn r (List.mem_cons_self r rs))
    have h2 := ih (fun a ha => hn a (List.mem_cons_of_mem r ha))
      (fun a ha => hp a (List.mem_cons_of_mem r ha))
    simp only [total_participantes, sum_weighted_pct, List.map_cons,
      List.sum_cons] at h2 ⊢
    calc lo * (r.n_participantes + (rs.map Row.n_participantes).sum)
        = lo * r.n_participantes
            + lo * (rs.map Row.n_participantes).sum := mul_add lo _ _
      _ ≤ r.pct_proficiencia_display * r.n_participantes
            + (rs.map (fun x => x.pct_proficiencia_display * x.n_participantes)).sum :=
          add_le_add h1 h2

/-- With non-negative weights and an upper bound `hi` on every displayed
proficiency, the weighted sum is below `hi` times the participant total. -/
lemma sum_le_hi_mul_total (rows : List Row) (hi : ℚ)
    (hn : ∀ r ∈ rows, 0 ≤ r.n_participantes)
    (hp : ∀ r ∈ rows, r.pct_proficiencia_display ≤ hi) :
    sum_weighted_pct rows ≤ hi * total_participantes rows := by
  induction rows with
  | nil => simp [total_participantes, sum_weighted_pct]
  | cons r rs ih =>
    have h1 : r.pct_proficiencia_display * r.n_participantes
        ≤ hi * r.n_participantes :=
      mul_le_mul_of_nonneg_right (hp r (List.mem_cons_self r rs))
        (hn r (List.mem_cons_self r rs))
    have h2 := ih (fun a ha => hn a (List.mem_cons_of_mem r ha))
      (fun a ha => hp a (List.mem_cons_of_mem r ha))
    simp only [total_participantes, sum_weighted_pct, List.map_cons,
      List.sum_cons] at h2 ⊢
    calc r.pct_proficiencia_display * r.n_participantes
          + (rs.map (fun x => x.pct_proficiencia_display * x.n_participantes)).sum
        ≤ hi * r.n_participantes + hi * (rs.map Row.n_participantes).sum :=
          add_le_add h1 h2
      _ = hi * (r.n_participantes + (rs.map Row.n_participantes).sum) :=
          (mul_add hi _ _).symm

/-- C10: on a subset with non-negative participant counts and positive total,
the weighted mean is the finite value `Σ(p·n)/Σn`, it lies between the
minimum and maximum displayed proficiency of the subset, and in particular
it lies in `[0, 100]` whenever those extremes do (that is, whenever every
proficiency fraction is in `[0, 1]`). -/
theorem C10_mean_bounds (rows : List Row) (m M : ℚ)
    (hn : ∀ r ∈ rows, 0 ≤ r.n_participantes)
    (hpos : 0 < total_participantes rows)
    (hm : (rows.map Row.pct_proficiencia_display).min? = some m)
    (hM : (rows.map Row.pct_proficiencia_display).max? = some M) :
    weighted_mean_proficiency rows
      = ExtQ.fin (sum_weighted_pct rows / total_participantes rows)
    ∧ m ≤ sum_weighted_pct rows / total_participantes rows
    ∧ sum_weighted_pct rows / total_participantes rows ≤ M
    ∧ (0 ≤ m → M ≤ 100 →
        0 ≤ sum_weighted_pct rows / total_participantes rows
        ∧ sum_weighted_pct rows / total_participantes rows ≤ 100) := by
  have hlo : m ≤ sum_weighted_pct rows / total_participantes rows := by
    rw [le_div_iff₀ hpos]
    exact lo_mul_total_le_sum rows m hn
      (fun r hr => min?_le_of_mem hm (List.mem_map_of_mem _ hr))
  have hhi : sum_weighted_pct rows / total_participantes rows ≤ M := by
    rw [div_le_iff₀ hpos]
    exact sum_le_hi_mul_total rows M hn
      (fun r hr => le_max?_of_mem hM (List.mem_map_of_mem _ hr))
  refine ⟨?_, hlo, hhi, ?_⟩
  · unfold weighted_mean_proficiency divE
    rw [if_neg (ne_of_gt hpos)]
  · intro h0 h100
    exact ⟨le_trans h0 hlo, le_trans hhi h100⟩

/-- Witness for C10: two rows with displayed proficiencies 50 and 90 and
equal weights; the mean lies between 50 and 90 and in `[0, 100]`. -/
theorem C10_mean_bounds_witness :
    (50 : ℚ)
        ≤ sum_weighted_pct
            [mkRow "A" "SP" "Privada" 2 50, mkRow "B" "SP" "Privada" 2 90]
          / total_participantes
            [mkRow "A" "SP" "Privada" 2 50, mkRow "B" "SP" "Privada" 2 90]
    ∧ sum_weighted_pct
          [mkRow "A" "SP" "Privada" 2 50, mkRow "B" "SP" "Privada" 2 90]
        / total_participantes
          [mkRow "A" "SP" "Privada" 2 50, mkRow "B" "SP" "Privada" 2 90] ≤ 90 := by
  have h := C10_mean_bounds
    [mkRow "A" "SP" "Privada" 2 50, mkRow "B" "SP" "Privada" 2 90] 50 90
    (by intro r hr
        rcases List.mem_cons.mp hr with rfl | hr2
        · norm_num [mkRow]
        · rcases List.mem_cons.mp hr2 with rfl | hr3
          · norm_num [mkRow]
          · cases hr3)
    (by norm_num [total_participantes, mkRow])
    (by norm_num [List.min?_cons', mkRow])
    (by norm_num [List.max?_cons', mkRow])
  exact ⟨h.2.1, h.2.2.1⟩
